import Mathlib

/-
  Verification development for the LegacyLens repository.

  The repository drives a five-stage code-modernization pipeline
  (Archaeologist/Extractor, Architect/Mapper, Engineer/Generator,
  Validator, Scribe/Documenter).  The frontend sources under
  src/frontend and src/unnamed are embedded directly; the backend
  orchestration core (src/core/graph.py, src/memory/manager.py) is not
  part of the sources, so those components are modelled from the
  specification, as marked in the doc comments below.
-/

namespace LegacyLens

/-! ## Frontend agent model

Embedded from `src/unnamed/part_000` and
`src/frontend/src/app/refactor/page.tsx`: the `AgentStatus` union type,
the `Agent` interface and the initial `agents` state array. -/

/-- The union type `AgentStatus = "pending" | "running" | "completed" | "failed"`. -/
inductive AgentStatus
  | pending
  | running
  | completed
  | failed
deriving DecidableEq

/-- The interface `Agent { id; name; emoji; status; message? }`. -/
structure Agent where
  id : String
  name : String
  emoji : String
  status : AgentStatus
  message : Option String
deriving DecidableEq

/-- The initial `agents` `useState` array (same in both page variants). -/
def initialAgents : List Agent :=
  [⟨"archaeologist", "Archaeologist", "🏛️", .pending, none⟩,
   ⟨"architect", "Architect", "📐", .pending, none⟩,
   ⟨"engineer", "Engineer", "⚙️", .pending, none⟩,
   ⟨"validator", "Validator", "✅", .pending, none⟩,
   ⟨"scribe", "Scribe", "📜", .pending, none⟩]

/-! ## WebSocket messages and the consumer (src/unnamed/part_000)

The `ws.onmessage` handler switches on `data.type` with exactly three
cases: `agent_update`, `job_complete`, `job_error`. -/

/-- The three message shapes handled by `ws.onmessage`. -/
inductive WsMessage
  | agentUpdate (agent_id : String) (status : AgentStatus) (message : Option String)
  | jobComplete (generated_code : String)
  | jobError (error : String)
deriving DecidableEq

/-- The React state touched by the WebSocket consumer: `agents`,
`modernCode`, `error`, `isProcessing`, `connected`, plus `wsOpen`
standing for the socket not having been `close()`d. -/
structure UIState where
  agents : List Agent
  modernCode : String
  error : Option String
  isProcessing : Bool
  connected : Bool
  wsOpen : Bool
deriving DecidableEq

/-- The `agent_update` case of `ws.onmessage`:
`prev.map(a => a.id === data.agent_id ? {...a, status, message} : a)`. -/
def applyAgentUpdate (agent_id : String) (status : AgentStatus)
    (message : Option String) (agents : List Agent) : List Agent :=
  agents.map fun a =>
    if a.id = agent_id then { a with status := status, message := message } else a

/-- The full `ws.onmessage` handler from `src/unnamed/part_000`:
`agent_update` rewrites the matching agent; `job_complete` stores the
generated code, clears the processing/connected flags and closes the
socket; `job_error` stores the error and does the same. -/
def onMessage (s : UIState) : WsMessage → UIState
  | .agentUpdate aid st msg => { s with agents := applyAgentUpdate aid st msg s.agents }
  | .jobComplete code =>
      { s with modernCode := code, isProcessing := false, connected := false, wsOpen := false }
  | .jobError e =>
      { s with error := some e, isProcessing := false, connected := false, wsOpen := false }

/-- A message is final when it is `job_complete` or `job_error`. -/
def isFinal : WsMessage → Bool
  | .agentUpdate _ _ _ => false
  | .jobComplete _ => true
  | .jobError _ => true

/-- Process a stream of WebSocket messages in order. -/
def processAll (s : UIState) (ms : List WsMessage) : UIState :=
  ms.foldl onMessage s

/-! ## The mock pipeline run (src/frontend/src/app/refactor/page.tsx)

`simulateRefactor` resets the agents, then for `i = 0..4` sets agent
`i` to `running`, waits, sets agent `i` to `completed` with
`messages[i]`, and finally stores `SAMPLE_PYTHON` in `modernCode`. -/

/-- The `resetAgents` callback: every agent back to `pending` with no message. -/
def resetAgents (agents : List Agent) : List Agent :=
  agents.map fun a => { a with status := .pending, message := none }

/-- The `messages` array inside `simulateRefactor`. -/
def simMessages : List String :=
  ["Parsed 1 class, 3 methods, 2 memory allocations",
   "Mapped: new/delete → context manager, loop → NumPy",
   "Generated Python module with type hints",
   "All 5 tests passed (100% coverage)",
   "Created README.md and Architecture.md"]

/-- The update `prev.map((a, idx) => idx === i ? {...a, status: "running"} : a)`. -/
def setRunningAt (i : Nat) (agents : List Agent) : List Agent :=
  agents.mapIdx fun idx a => if idx = i then { a with status := .running } else a

/-- The update `prev.map((a, idx) => idx === i ? {...a, status: "completed", message: messages[i]} : a)`. -/
def setCompletedAt (i : Nat) (msg : String) (agents : List Agent) : List Agent :=
  agents.mapIdx fun idx a =>
    if idx = i then { a with status := .completed, message := some msg } else a

/-- The `SAMPLE_PYTHON` constant shown as the generated artifact. -/
def SAMPLE_PYTHON : String :=
  "from pathlib import Path\n" ++
  "from dataclasses import dataclass\n" ++
  "import numpy as np\n" ++
  "from numpy.typing import NDArray\n" ++
  "\n" ++
  "@dataclass\n" ++
  "class ImageProcessor:\n" ++
  "    \"\"\"Modern Python image processor with automatic resource management.\"\"\"\n" ++
  "    width: int\n" ++
  "    height: int\n" ++
  "    _pixel_buffer: NDArray[np.uint8] | None = None\n" ++
  "    \n" ++
  "    def __post_init__(self):\n" ++
  "        self._pixel_buffer = np.zeros(\n" ++
  "            (self.height, self.width, 3), dtype=np.uint8\n" ++
  "        )\n" ++
  "    \n" ++
  "    def __enter__(self):\n" ++
  "        return self\n" ++
  "    \n" ++
  "    def __exit__(self, exc_type, exc_val, exc_tb):\n" ++
  "        self._pixel_buffer = None\n" ++
  "        return False\n" ++
  "    \n" ++
  "    def apply_gamma(self, gamma: float) -> None:\n" ++
  "        \"\"\"Apply gamma correction using vectorized NumPy operations.\"\"\"\n" ++
  "        normalized = self._pixel_buffer.astype(np.float32) / 255.0\n" ++
  "        corrected = np.power(normalized, gamma)\n" ++
  "        self._pixel_buffer = (corrected * 255.0).astype(np.uint8)\n" ++
  "\n" ++
  "\n" ++
  "# Usage with context manager\n" ++
  "def main():\n" ++
  "    with ImageProcessor(1920, 1080) as processor:\n" ++
  "        processor.apply_gamma(2.2)\n" ++
  "\n" ++
  "\n" ++
  "if __name__ == \"__main__\":\n" ++
  "    main()"

/-- The UI state touched by `simulateRefactor`. -/
structure SimState where
  agents : List Agent
  modernCode : String
deriving DecidableEq

/-- The successive states produced by the `for` loop of
`simulateRefactor` on the remaining stage indices, ending with the
final state in which `modernCode` is set to `SAMPLE_PYTHON`. -/
def simGo (agents : List Agent) : List Nat → List SimState
  | [] => [⟨agents, ""⟩, ⟨agents, SAMPLE_PYTHON⟩]
  | i :: rest =>
    let r := setRunningAt i agents
    ⟨agents, ""⟩ :: ⟨r, ""⟩ :: simGo (setCompletedAt i (simMessages.getD i "") r) rest

/-- Every state visible during one `simulateRefactor` run, in order. -/
def simulateTrace : List SimState :=
  simGo (resetAgents initialAgents) (List.range 5)

/-- Sequencing check for one state: a stage may be past `pending` only
when its predecessor is `completed`, and the artifact may be present
only when all five stages are `completed`. -/
def stageOrderOk (s : SimState) : Bool :=
  ((List.range 4).all fun i =>
    match s.agents[i]?, s.agents[i + 1]? with
    | some a, some b => (b.status == .pending) || (a.status == .completed)
    | _, _ => true) &&
  ((s.modernCode == "") || s.agents.all fun a => a.status == .completed)

/-- Claim C8: within one job the five stages execute strictly
sequentially in the fixed order Archaeologist, Architect, Engineer,
Validator, Scribe: in every state of the `simulateRefactor` trace,
stage `i+1` is never set to `running` before stage `i` has completed,
and the final artifact is produced only after all five stages have
completed. -/
theorem pipeline_stage_sequencing : simulateTrace.all stageOrderOk = true := by
  decide

/-- Claim C9: processing an `agent_update` event replaces the status
and message of exactly the agents whose `id` equals the event's
`agent_id`, leaves every other agent's record unchanged, and preserves
the length (hence the order) of the agent list. -/
theorem agent_update_frame (agents : List Agent) (aid : String)
    (st : AgentStatus) (msg : Option String) :
    (applyAgentUpdate aid st msg agents).length = agents.length ∧
    ∀ (i : Nat) (a : Agent), agents[i]? = some a →
      (applyAgentUpdate aid st msg agents)[i]? =
        some (if a.id = aid then { a with status := st, message := msg } else a) := by
  constructor
  · simp [applyAgentUpdate]
  · intro i a ha
    simp [applyAgentUpdate, List.getElem?_map, ha]

/-- Concrete instance of `agent_update_frame`: updating the agent with
id `"validator"` in the initial list leaves agent 1 (the Architect)
untouched and keeps the list length at 5. -/
theorem agent_update_frame_check :
    (applyAgentUpdate "validator" AgentStatus.running none initialAgents).length =
      initialAgents.length ∧
    (applyAgentUpdate "validator" AgentStatus.running none initialAgents)[1]? =
      some (if (Agent.mk "architect" "Architect" "📐" .pending none).id = "validator" then
        { Agent.mk "architect" "Architect" "📐" .pending none with
            status := AgentStatus.running, message := none }
      else Agent.mk "architect" "Architect" "📐" .pending none) :=
  ⟨(agent_update_frame initialAgents "validator" AgentStatus.running none).1,
   (agent_update_frame initialAgents "validator" AgentStatus.running none).2 1
     (Agent.mk "architect" "Architect" "📐" .pending none) rfl⟩

/-! ## Progress stream (claim C7)

The consumer side is `ws.onmessage` above.  The producer (the backend
server) is not part of the sources; per the spec the stream is an
ordered sequence of stage events followed by exactly one final
`job_complete` or `job_error` event. -/

-- A non-final message (an `agent_update`) never closes the socket.
theorem onMessage_nonfinal_wsOpen (s : UIState) (m : WsMessage)
    (hm : isFinal m = false) : (onMessage s m).wsOpen = s.wsOpen := by
  cases m with
  | agentUpdate aid st msg => rfl
  | jobComplete code => simp [isFinal] at hm
  | jobError e => simp [isFinal] at hm

-- Processing only non-final messages keeps the socket open.
theorem processAll_nonfinal_wsOpen (ms : List WsMessage) :
    ∀ (s : UIState), (∀ m ∈ ms, isFinal m = false) →
      (processAll s ms).wsOpen = s.wsOpen := by
  induction ms with
  | nil => intro s _; rfl
  | cons m rest ih =>
    intro s hms
    have h1 : isFinal m = false := hms m (List.mem_cons_self m rest)
    have h2 : ∀ m' ∈ rest, isFinal m' = false :=
      fun m' hm' => hms m' (List.mem_cons_of_mem m hm')
    calc (processAll (onMessage s m) rest).wsOpen
        = (onMessage s m).wsOpen := ih (onMessage s m) h2
      _ = s.wsOpen := onMessage_nonfinal_wsOpen s m h1

/-- Claim C7: the progress stream for a job is an ordered list of stage
events (each carrying a stage id, a status from
{pending, running, completed, failed} and an optional message — the
`WsMessage.agentUpdate` shape) followed by exactly one final
generated-artifact or error event.  The consumer (`ws.onmessage`)
handles exactly these shapes: it keeps the socket open across all stage
events and treats the final event as terminating the stream, closing
the socket and ending processing. -/
theorem progress_stream_consumption (updates : List WsMessage)
    (final : WsMessage) (s : UIState)
    (hu : ∀ m ∈ updates, isFinal m = false)
    (hf : isFinal final = true) (hopen : s.wsOpen = true) :
    (processAll s updates).wsOpen = true ∧
    (processAll s (updates ++ [final])).wsOpen = false ∧
    (processAll s (updates ++ [final])).isProcessing = false := by
  have hmid : (processAll s updates).wsOpen = true :=
    (processAll_nonfinal_wsOpen updates s hu).trans hopen
  have happ : processAll s (updates ++ [final]) =
      onMessage (processAll s updates) final := by
    simp [processAll, List.foldl_append]
  refine ⟨hmid, ?_, ?_⟩ <;> rw [happ] <;>
    cases final <;> simp [isFinal] at hf ⊢ <;> rfl

/-- The initial UI state of the refactor page, just after the
WebSocket has been opened. -/
def initialUIState : UIState :=
  ⟨initialAgents, "", none, true, true, true⟩

/-- Concrete instance of `progress_stream_consumption`: two stage
events for the Archaeologist followed by a `job_complete` event leave
the socket open until the final event, which closes it and ends
processing. -/
theorem progress_stream_check :
    (processAll initialUIState
      [WsMessage.agentUpdate "archaeologist" .running none,
       WsMessage.agentUpdate "archaeologist" .completed (some "Parsed")]).wsOpen = true ∧
    (processAll initialUIState
      ([WsMessage.agentUpdate "archaeologist" .running none,
        WsMessage.agentUpdate "archaeologist" .completed (some "Parsed")] ++
       [WsMessage.jobComplete "print(1)"])).wsOpen = false ∧
    (processAll initialUIState
      ([WsMessage.agentUpdate "archaeologist" .running none,
        WsMessage.agentUpdate "archaeologist" .completed (some "Parsed")] ++
       [WsMessage.jobComplete "print(1)"])).isProcessing = false :=
  progress_stream_consumption
    [WsMessage.agentUpdate "archaeologist" .running none,
     WsMessage.agentUpdate "archaeologist" .completed (some "Parsed")]
    (WsMessage.jobComplete "print(1)") initialUIState
    (by decide) (by decide) (by decide)

/-! ## Job submission (claim C6)

Embedded from `handleRefactor` in `src/unnamed/part_000`: the POST body
is `JSON.stringify({source_code, language, file_name, use_mock})`, the
response yields `job_id`, and only then is the WebSocket opened. -/

/-- The two source languages offered by the UI. -/
inductive Lang
  | cpp
  | java
deriving DecidableEq

/-- The string tag used for a language in the request body. -/
def langTag : Lang → String
  | .cpp => "cpp"
  | .java => "java"

/-- The request record built by `handleRefactor`. -/
structure RefactorRequest where
  source_code : String
  language : Lang
  file_name : String
  use_mock : Bool
deriving DecidableEq

/-- The request record that `handleRefactor` builds from the editor state:
`{source_code: legacyCode, language, file_name: input.<language>, use_mock: useMock}`. -/
def mkRefactorRequest (legacyCode : String) (language : Lang) (useMock : Bool) :
    RefactorRequest :=
  { source_code := legacyCode, language := language,
    file_name := "input." ++ langTag language, use_mock := useMock }

/-- The serialized key/value pairs of the JSON body, in source order. -/
def requestBody (r : RefactorRequest) : List (String × String) :=
  [("source_code", r.source_code),
   ("language", langTag r.language),
   ("file_name", r.file_name),
   ("use_mock", if r.use_mock then "true" else "false")]

/-- Observable steps of one `handleRefactor` run, in order. -/
inductive FlowStep
  | post (body : List (String × String))
  | gotJobId (jobId : String)
  | wsConnect (jobId : String)
  | wsEvent (m : WsMessage)
deriving DecidableEq

/-- The `handleRefactor` flow: POST the body, read `job_id` from the response,
open the WebSocket on that id, then receive the pipeline events. -/
def refactorFlow (legacyCode : String) (language : Lang) (useMock : Bool)
    (jobId : String) (events : List WsMessage) : List FlowStep :=
  FlowStep.post (requestBody (mkRefactorRequest legacyCode language useMock)) ::
  FlowStep.gotJobId jobId ::
  FlowStep.wsConnect jobId ::
  events.map FlowStep.wsEvent

/-- Counterexample to claim C6 as stated: the submission body built by
the code carries the keys `source_code`, `language`, `file_name`,
`use_mock` — it contains no field named `source_text`, none named
`source_language` and none named `mode`. -/
theorem request_field_names_example :
    (requestBody (mkRefactorRequest "int x;" Lang.cpp true)).map Prod.fst =
      ["source_code", "language", "file_name", "use_mock"] ∧
    "source_text" ∉ (requestBody (mkRefactorRequest "int x;" Lang.cpp true)).map Prod.fst ∧
    "source_language" ∉ (requestBody (mkRefactorRequest "int x;" Lang.cpp true)).map Prod.fst ∧
    "mode" ∉ (requestBody (mkRefactorRequest "int x;" Lang.cpp true)).map Prod.fst := by
  refine ⟨rfl, ?_, ?_, ?_⟩ <;> decide

/-- Claim C6 (amended): job submission sends exactly the four fields
`source_code`, `language` (a tag in {cpp, java}), `file_name` and
`use_mock` (the mock/real mode flag); the opaque job identifier is
received at flow position 1, strictly before any pipeline event (all of
which sit at positions ≥ 3), so submission completes before pipeline
execution is observed. -/
theorem submission_request_shape (legacyCode : String) (language : Lang)
    (useMock : Bool) (jobId : String) (events : List WsMessage) :
    (requestBody (mkRefactorRequest legacyCode language useMock)).map Prod.fst =
      ["source_code", "language", "file_name", "use_mock"] ∧
    (langTag language = "cpp" ∨ langTag language = "java") ∧
    (refactorFlow legacyCode language useMock jobId events)[1]? =
      some (FlowStep.gotJobId jobId) ∧
    ∀ (i : Nat) (m : WsMessage),
      (refactorFlow legacyCode language useMock jobId events)[i]? =
        some (FlowStep.wsEvent m) → 3 ≤ i := by
  refine ⟨rfl, ?_, rfl, ?_⟩
  · cases language
    · exact Or.inl rfl
    · exact Or.inr rfl
  · intro i m hm
    match i with
    | 0 => simp [refactorFlow] at hm
    | 1 => simp [refactorFlow] at hm
    | 2 => simp [refactorFlow] at hm
    | (k + 3) => omega

/-- Concrete instance of `submission_request_shape`: a C++ mock
submission posts exactly the four field names and the first pipeline
event sits at position 3 of the flow. -/
theorem submission_request_check :
    (requestBody (mkRefactorRequest "int x;" Lang.cpp true)).map Prod.fst =
      ["source_code", "language", "file_name", "use_mock"] ∧ 3 ≤ 3 :=
  ⟨(submission_request_shape "int x;" Lang.cpp true "job-1"
      [WsMessage.jobComplete "x = 0"]).1,
   (submission_request_shape "int x;" Lang.cpp true "job-1"
      [WsMessage.jobComplete "x = 0"]).2.2.2 3 (WsMessage.jobComplete "x = 0") rfl⟩

/-! ## File upload (claim C10)

Embedded from `handleFileUpload` in the refactor page (the full variant
recorded in `src/README.md`):
`const extension = file.name.split('.').pop()?.toLowerCase()`, then
cpp-family extensions select C++, `java` selects Java, anything else
leaves the language alone; the file name is recorded and the file text
replaces the editor content.  JavaScript string operations are modelled
on the character sequence of the name. -/

/-- JavaScript `string.split(sep)` on a character sequence. -/
def splitOnChar (sep : Char) : List Char → List (List Char)
  | [] => [[]]
  | c :: rest =>
    match splitOnChar sep rest with
    | [] => [[c]]
    | s :: ss => if c = sep then [] :: s :: ss else (c :: s) :: ss

/-- The candidate `file.name.split('.').pop()?.toLowerCase()`: the last dot-separated
segment of the name, lower-cased. -/
def extCandidate (name : String) : List Char :=
  ((splitOnChar '.' name.data).getLastD []).map Char.toLower

/-- The editor state touched by `handleFileUpload`. -/
structure EditorState where
  language : Lang
  legacyCode : String
  fileName : Option String
deriving DecidableEq

/-- The handler `handleFileUpload(file)`: detect the language from the extension
candidate, record the file name, and load the file text into the
editor. -/
def handleFileUpload (name content : String) (s : EditorState) : EditorState :=
  let ext := extCandidate name
  let lang :=
    if ext = "cpp".data ∨ ext = "cc".data ∨ ext = "cxx".data ∨
       ext = "c".data ∨ ext = "h".data ∨ ext = "hpp".data then Lang.cpp
    else if ext = "java".data then Lang.java
    else s.language
  { language := lang, legacyCode := content, fileName := some name }

/-- Counterexample to claim C10 as stated: a file named `java` has no
extension (its name contains no dot), yet uploading it over a C++
selection switches the language to Java, because `split('.').pop()`
returns the whole name when there is no dot. -/
theorem upload_language_example :
    (splitOnChar '.' ("java" : String).data).length = 1 ∧
    (handleFileUpload "java" "class A" ⟨Lang.cpp, "", none⟩).language = Lang.java ∧
    (Lang.java ≠ Lang.cpp) := by
  refine ⟨?_, ?_, ?_⟩ <;> decide

/-- Claim C10 (amended): uploading a file sets the language
deterministically from the lower-cased final dot-separated segment of
the file name (the whole lower-cased name when the name has no dot):
`cpp`, `cc`, `cxx`, `c`, `h`, `hpp` select C++, `java` selects Java,
and any other candidate leaves the previously selected language
unchanged; in every case the file text replaces the editor content and
the file name is recorded. -/
theorem upload_language_detection (name content : String) (s : EditorState) :
    (handleFileUpload name content s).legacyCode = content ∧
    (handleFileUpload name content s).fileName = some name ∧
    ((extCandidate name = "cpp".data ∨ extCandidate name = "cc".data ∨
      extCandidate name = "cxx".data ∨ extCandidate name = "c".data ∨
      extCandidate name = "h".data ∨ extCandidate name = "hpp".data) →
      (handleFileUpload name content s).language = Lang.cpp) ∧
    (extCandidate name = "java".data →
      (handleFileUpload name content s).language = Lang.java) ∧
    (¬(extCandidate name = "cpp".data ∨ extCandidate name = "cc".data ∨
       extCandidate name = "cxx".data ∨ extCandidate name = "c".data ∨
       extCandidate name = "h".data ∨ extCandidate name = "hpp".data) →
      ¬ extCandidate name = "java".data →
      (handleFileUpload name content s).language = s.language) := by
  refine ⟨rfl, rfl, ?_, ?_, ?_⟩
  · intro h
    simp only [handleFileUpload, if_pos h]
  · intro h
    by_cases hc : extCandidate name = "cpp".data ∨ extCandidate name = "cc".data ∨
        extCandidate name = "cxx".data ∨ extCandidate name = "c".data ∨
        extCandidate name = "h".data ∨ extCandidate name = "hpp".data
    · rcases hc with hc | hc | hc | hc | hc | hc <;> rw [hc] at h <;> simp at h
    · simp only [handleFileUpload, if_neg hc, if_pos h]
  · intro hc hj
    simp only [handleFileUpload, if_neg hc, if_neg hj]

/-- Concrete instance of `upload_language_detection`: uploading
`Legacy.CPP` over a Java selection switches the language to C++, loads
the content, and records the name. -/
theorem upload_language_check :
    (handleFileUpload "Legacy.CPP" "int x;" ⟨Lang.java, "", none⟩).legacyCode = "int x;" ∧
    (handleFileUpload "Legacy.CPP" "int x;" ⟨Lang.java, "", none⟩).language = Lang.cpp :=
  ⟨(upload_language_detection "Legacy.CPP" "int x;" ⟨Lang.java, "", none⟩).1,
   (upload_language_detection "Legacy.CPP" "int x;" ⟨Lang.java, "", none⟩).2.2.1
     (Or.inl (by decide))⟩

/-! ## Pipeline orchestration (claims C1, C2, C3)

Modelled from the spec: the orchestration core (`src/core/graph.py`
with `should_retry_or_proceed`, and `src/core/state.py`) is not among
the sources; the model below follows §3, §4.4 and §4.5 of the spec: the
fixed forward order Extractor → Mapper → Generator → Validator, the
Router decision table evaluated after Validator (pass → Documenter;
fail with `retry_count < max_retries` → Generator after incrementing
`retry_count`; fail otherwise → terminal `failed` preserving the last
`validation_result`), and terminal states being frozen. -/

/-- The five pipeline stages. -/
inductive Stage
  | extractor
  | mapper
  | generator
  | validator
  | documenter
deriving DecidableEq

/-- The pipeline status enumeration. -/
inductive PipeStatus
  | pending
  | running
  | completed
  | failed
deriving DecidableEq

/-- The `validation_result` record: pass/fail flag, pass rate (0.0–1.0), itemized
failure descriptions. -/
structure VResult where
  pass : Bool
  pass_rate : ℚ
  failures : List String
deriving DecidableEq

/-- Pipeline configuration: the retry budget (default 3). -/
structure Config where
  max_retries : Nat := 3
deriving DecidableEq

/-- The outcome of the k-th Validator invocation of a job (the
validation behaviour of the job's input, indexed by attempt). -/
def Oracle : Type := Nat → VResult

/-- The pipeline state threaded through the stages, plus ghost counters
for the number of Generator and Validator invocations so far.  `next`
is the stage the Router has selected to run next (`none` once
terminal). -/
structure PState where
  status : PipeStatus
  next : Option Stage
  retry_count : Nat
  validation_result : Option VResult
  genRuns : Nat
  valRuns : Nat

/-- A fresh job: running, about to enter the Extractor, with
`retry_count = 0` and no validation result yet. -/
def initPState : PState :=
  ⟨.running, some .extractor, 0, none, 0, 0⟩

/-- One Orchestrator move: run the selected stage and apply the Router.
Terminal states (`next = none`) are frozen. -/
def stepPipe (cfg : Config) (orc : Oracle) (s : PState) : PState :=
  match s.next with
  | none => s
  | some .extractor => { s with next := some .mapper }
  | some .mapper => { s with next := some .generator }
  | some .generator => { s with next := some .validator, genRuns := s.genRuns + 1 }
  | some .validator =>
    let vr := orc s.valRuns
    if vr.pass then
      { s with next := some .documenter, validation_result := some vr,
               valRuns := s.valRuns + 1 }
    else if s.retry_count < cfg.max_retries then
      { s with next := some .generator, retry_count := s.retry_count + 1,
               validation_result := some vr, valRuns := s.valRuns + 1 }
    else
      { s with next := none, status := .failed, validation_result := some vr,
               valRuns := s.valRuns + 1 }
  | some .documenter => { s with next := none, status := .completed }

/-- The state after `n` Orchestrator moves. -/
def runPipe (cfg : Config) (orc : Oracle) : Nat → PState
  | 0 => initPState
  | n + 1 => stepPipe cfg orc (runPipe cfg orc n)

/-- Claim C1: when Validator has just completed (the Router is looking
at a state about to leave the Validator), the decision is exactly: on
pass, Documenter; on fail with `retry_count < max_retries`, Generator
after incrementing `retry_count`; on fail otherwise, terminal `failed`
— in every case storing the last `validation_result`, for every state
and every configured `max_retries`. -/
theorem router_decision_after_validator (cfg : Config) (orc : Oracle)
    (s : PState) (h : s.next = some Stage.validator) :
    ((orc s.valRuns).pass = true →
      stepPipe cfg orc s =
        { s with next := some Stage.documenter,
                 validation_result := some (orc s.valRuns),
                 valRuns := s.valRuns + 1 }) ∧
    ((orc s.valRuns).pass = false → s.retry_count < cfg.max_retries →
      stepPipe cfg orc s =
        { s with next := some Stage.generator,
                 retry_count := s.retry_count + 1,
                 validation_result := some (orc s.valRuns),
                 valRuns := s.valRuns + 1 }) ∧
    ((orc s.valRuns).pass = false → ¬ s.retry_count < cfg.max_retries →
      stepPipe cfg orc s =
        { s with next := none, status := PipeStatus.failed,
                 validation_result := some (orc s.valRuns),
                 valRuns := s.valRuns + 1 }) := by
  refine ⟨?_, ?_, ?_⟩
  · intro hp
    simp [stepPipe, h, hp]
  · intro hp hr
    simp [stepPipe, h, hp, hr]
  · intro hp hr
    simp [stepPipe, h, hp, hr]

/-- An always-failing validation behaviour. -/
def failOracle : Oracle := fun _ => ⟨false, 0, ["test_main failed"]⟩

/-- An always-passing validation behaviour. -/
def passOracle : Oracle := fun _ => ⟨true, 1, []⟩

/-- A state about to leave the Validator after a first validation. -/
def sampleValidatorState : PState :=
  ⟨.running, some .validator, 0, none, 1, 0⟩

/-- Concrete instance of `router_decision_after_validator`: with a
passing validation the Router selects the Documenter and stores the
result. -/
theorem router_decision_check :
    stepPipe ⟨3⟩ passOracle sampleValidatorState =
      { sampleValidatorState with next := some Stage.documenter,
                                  validation_result := some (passOracle 0),
                                  valRuns := 1 } :=
  (router_decision_after_validator ⟨3⟩ passOracle sampleValidatorState rfl).1 rfl

/-- Counterexample to claim C2 as stated: with the default budget
`max_retries = 3` and an input whose validation always fails, the
Generator is invoked 4 times before the job terminates as `failed` —
one initial invocation plus 3 retries, exceeding `max_retries`. -/
theorem generator_runs_exceed_budget_example :
    (runPipe ⟨3⟩ failOracle 10).genRuns = 4 ∧
    ¬ (runPipe ⟨3⟩ failOracle 10).genRuns ≤ (⟨3⟩ : Config).max_retries ∧
    (runPipe ⟨3⟩ failOracle 10).status = PipeStatus.failed := by
  refine ⟨rfl, by decide, rfl⟩

/-- The retry/run-count invariant maintained by every Orchestrator
move. -/
def PipeInv (cfg : Config) (s : PState) : Prop :=
  s.retry_count ≤ cfg.max_retries ∧
  s.genRuns ≤ s.retry_count + 1 ∧
  (s.next = some Stage.generator → s.genRuns ≤ s.retry_count) ∧
  (s.next = some Stage.extractor → s.genRuns = 0) ∧
  (s.next = some Stage.mapper → s.genRuns = 0)

-- The invariant holds initially.
theorem pipeInv_init (cfg : Config) : PipeInv cfg initPState := by
  refine ⟨Nat.zero_le _, Nat.zero_le _, ?_, ?_, ?_⟩ <;> intro h <;> simp_all [initPState]

-- The invariant is preserved by one move.
theorem pipeInv_step (cfg : Config) (orc : Oracle) (s : PState)
    (hI : PipeInv cfg s) : PipeInv cfg (stepPipe cfg orc s) := by
  obtain ⟨h1, h2, h3, h4, h5⟩ := hI
  cases hn : s.next with
  | none => simpa [stepPipe, hn] using ⟨h1, h2, h3, h4, h5⟩
  | some st =>
    cases st with
    | extractor =>
      have hg : s.genRuns = 0 := h4 hn
      refine ⟨?_, ?_, ?_, ?_, ?_⟩ <;> (simp [stepPipe, hn, hg]; try omega)
    | mapper =>
      have hg : s.genRuns = 0 := h5 hn
      refine ⟨?_, ?_, ?_, ?_, ?_⟩ <;> (simp [stepPipe, hn, hg]; try omega)
    | generator =>
      have hg : s.genRuns ≤ s.retry_count := h3 hn
      refine ⟨?_, ?_, ?_, ?_, ?_⟩ <;> simp [stepPipe, hn] <;> omega
    | validator =>
      by_cases hp : (orc s.valRuns).pass
      · refine ⟨?_, ?_, ?_, ?_, ?_⟩ <;> simp [stepPipe, hn, hp] <;> omega
      · by_cases hr : s.retry_count < cfg.max_retries
        · refine ⟨?_, ?_, ?_, ?_, ?_⟩ <;> simp [stepPipe, hn, hp, hr] <;> omega
        · refine ⟨?_, ?_, ?_, ?_, ?_⟩ <;> simp [stepPipe, hn, hp, hr] <;> omega
    | documenter =>
      refine ⟨?_, ?_, ?_, ?_, ?_⟩ <;> simp [stepPipe, hn] <;> omega

-- The invariant holds in every reachable state.
theorem pipeInv_run (cfg : Config) (orc : Oracle) (n : Nat) :
    PipeInv cfg (runPipe cfg orc n) := by
  induction n with
  | zero => exact pipeInv_init cfg
  | succ n ih => exact pipeInv_step cfg orc (runPipe cfg orc n) ih

/-- Claim C2 (amended): the Router selects Generator through the retry
edge at most `max_retries` times per job (`retry_count` never exceeds
the budget), so across any run the total number of Generator
invocations never exceeds `max_retries + 1` — the one initial forward
invocation plus at most `max_retries` retries. -/
theorem generator_runs_bounded (cfg : Config) (orc : Oracle) (n : Nat) :
    (runPipe cfg orc n).retry_count ≤ cfg.max_retries ∧
    (runPipe cfg orc n).genRuns ≤ cfg.max_retries + 1 := by
  obtain ⟨h1, h2, _⟩ := pipeInv_run cfg orc n
  exact ⟨h1, by omega⟩

-- One move never decreases `retry_count`.
theorem retry_count_step_mono (cfg : Config) (orc : Oracle) (s : PState) :
    s.retry_count ≤ (stepPipe cfg orc s).retry_count := by
  cases hn : s.next with
  | none => simp [stepPipe, hn]
  | some st =>
    cases st with
    | extractor => simp [stepPipe, hn]
    | mapper => simp [stepPipe, hn]
    | generator => simp [stepPipe, hn]
    | validator =>
      by_cases hp : (orc s.valRuns).pass
      · simp [stepPipe, hn, hp]
      · by_cases hr : s.retry_count < cfg.max_retries
        · simp [stepPipe, hn, hp, hr]
        · simp [stepPipe, hn, hp, hr]
    | documenter => simp [stepPipe, hn]

/-- Claim C3: `retry_count` starts at 0, never decreases across any
Orchestrator move, never exceeds the configured maximum, and an attempt
to exceed it (a failed validation with the budget exhausted) forces
`status = failed`. -/
theorem retry_count_invariants (cfg : Config) (orc : Oracle) (n : Nat) :
    (runPipe cfg orc 0).retry_count = 0 ∧
    (runPipe cfg orc n).retry_count ≤ (runPipe cfg orc (n + 1)).retry_count ∧
    (runPipe cfg orc n).retry_count ≤ cfg.max_retries ∧
    ((runPipe cfg orc n).next = some Stage.validator →
      (orc (runPipe cfg orc n).valRuns).pass = false →
      cfg.max_retries ≤ (runPipe cfg orc n).retry_count →
      (runPipe cfg orc (n + 1)).status = PipeStatus.failed) := by
  refine ⟨rfl, retry_count_step_mono cfg orc (runPipe cfg orc n),
    (pipeInv_run cfg orc n).1, ?_⟩
  intro hv hp hr
  show (stepPipe cfg orc (runPipe cfg orc n)).status = PipeStatus.failed
  simp [stepPipe, hv, hp, Nat.not_lt.mpr hr]

/-- Concrete instance of `retry_count_invariants`: with a zero retry
budget and an always-failing input, the very first failed validation
exhausts the budget and the job is `failed` one move later. -/
theorem retry_count_invariants_check :
    (runPipe ⟨0⟩ failOracle 4).status = PipeStatus.failed :=
  (retry_count_invariants ⟨0⟩ failOracle 3).2.2.2 rfl rfl (by decide)

/-! ## Context Manager (claims C4, C5)

Modelled from the spec: `src/memory/manager.py` is not among the
sources.  The model follows §4.1 of the spec and the configuration
recorded in `src/README.md`: small files (below 4K tokens) are fed
directly, medium files (4K–16K) through a sliding window of 512-token
chunks overlapping by 64 tokens, large files (above 16K) through
retrieval; an uncomputable token estimate falls back to Windowed with a
warning. -/

/-- The `MemoryConfig` record from `src/README.md`, extended with the two
size thresholds of the strategy table (defaults 4,000 and 16,000). -/
structure MemoryConfig where
  max_context_tokens : Nat := 8192
  small_threshold : Nat := 4000
  large_threshold : Nat := 16000
  chunk_size_tokens : Nat := 512
  chunk_overlap_tokens : Nat := 64
  top_k_retrieval : Nat := 5
deriving DecidableEq

/-- The three feeding strategies. -/
inductive Strategy
  | direct
  | windowed
  | retrieval
deriving DecidableEq

/-- Strategy selection from the estimated token count (`none` when the
estimate cannot be computed).  Returns the strategy and whether a
warning was recorded. -/
def selectStrategy (cfg : MemoryConfig) (est : Option Nat) : Strategy × Bool :=
  match est with
  | none => (.windowed, true)
  | some t =>
    if t < cfg.small_threshold then (.direct, false)
    else if t ≤ cfg.large_threshold then (.windowed, false)
    else (.retrieval, false)

/-- Claim C4: strategy selection is a pure function of the estimated
token count and the thresholds — below the small threshold Direct,
between the thresholds (inclusive) Windowed, above the large threshold
Retrieval — well-defined on both sides of each exact threshold (at the
default thresholds, 3,999 → Direct, 4,000 → Windowed, 16,000 →
Windowed, 16,001 → Retrieval); when no estimate can be computed,
Windowed is selected and a warning recorded. -/
theorem strategy_selection_spec (cfg : MemoryConfig) (t : Nat)
    (hcfg : cfg.small_threshold ≤ cfg.large_threshold) :
    (t < cfg.small_threshold → selectStrategy cfg (some t) = (Strategy.direct, false)) ∧
    (cfg.small_threshold ≤ t → t ≤ cfg.large_threshold →
      selectStrategy cfg (some t) = (Strategy.windowed, false)) ∧
    (cfg.large_threshold < t → selectStrategy cfg (some t) = (Strategy.retrieval, false)) ∧
    selectStrategy cfg none = (Strategy.windowed, true) ∧
    selectStrategy {} (some 3999) = (Strategy.direct, false) ∧
    selectStrategy {} (some 4000) = (Strategy.windowed, false) ∧
    selectStrategy {} (some 16000) = (Strategy.windowed, false) ∧
    selectStrategy {} (some 16001) = (Strategy.retrieval, false) := by
  refine ⟨?_, ?_, ?_, rfl, by decide, by decide, by decide, by decide⟩
  · intro h
    simp [selectStrategy, h]
  · intro h1 h2
    have h3 : ¬ t < cfg.small_threshold := by omega
    simp [selectStrategy, h3, h2]
  · intro h
    have h1 : ¬ t < cfg.small_threshold := by omega
    have h2 : ¬ t ≤ cfg.large_threshold := by omega
    simp [selectStrategy, h1, h2]

/-- Concrete instance of `strategy_selection_spec` at the default
configuration: 100 tokens → Direct, 5,000 → Windowed, 20,000 →
Retrieval. -/
theorem strategy_selection_check :
    selectStrategy {} (some 100) = (Strategy.direct, false) ∧
    selectStrategy {} (some 5000) = (Strategy.windowed, false) ∧
    selectStrategy {} (some 20000) = (Strategy.retrieval, false) :=
  ⟨(strategy_selection_spec {} 100 (by decide)).1 (by decide),
   (strategy_selection_spec {} 5000 (by decide)).2.1 (by decide) (by decide),
   (strategy_selection_spec {} 20000 (by decide)).2.2.1 (by decide)⟩

/-! ## Windowed chunking (claim C5)

Modelled from the spec: overlapping chunks of a configured size with a
configured overlap; each chunk records its start/end offsets; the
ordered sequence preserves source order and reassembles to the original
text.  Text is a sequence of tokens. -/

/-- One chunk: its start/end offsets in the original sequence and its
token payload. -/
structure Chunk (α : Type) where
  start : Nat
  stop : Nat
  data : List α
deriving DecidableEq

/-- Split a token sequence starting at offset `pos` into chunks of
`size` tokens; consecutive chunks start `size - ov` tokens apart, so
they overlap by `ov` tokens.  The final chunk takes whatever remains. -/
def chunkify {α : Type} (size ov : Nat) (hov : ov < size) (t : List α)
    (pos : Nat) : List (Chunk α) :=
  if _h : t.length ≤ size then
    [⟨pos, pos + t.length, t⟩]
  else
    ⟨pos, pos + size, t.take size⟩ ::
      chunkify size ov hov (t.drop (size - ov)) (pos + (size - ov))
termination_by t.length
decreasing_by simp only [List.length_drop]; omega

-- Unfolding equation for short inputs.
theorem chunkify_of_le {α : Type} (size ov : Nat) (hov : ov < size)
    (t : List α) (pos : Nat) (hle : t.length ≤ size) :
    chunkify size ov hov t pos = [⟨pos, pos + t.length, t⟩] := by
  conv_lhs => unfold chunkify
  rw [dif_pos hle]

-- Unfolding equation for long inputs.
theorem chunkify_of_gt {α : Type} (size ov : Nat) (hov : ov < size)
    (t : List α) (pos : Nat) (hgt : size < t.length) :
    chunkify size ov hov t pos =
      ⟨pos, pos + size, t.take size⟩ ::
        chunkify size ov hov (t.drop (size - ov)) (pos + (size - ov)) := by
  conv_lhs => unfold chunkify
  rw [dif_neg (by omega)]

-- The first chunk always starts at `pos` and holds the first
-- `size` tokens (all of them when fewer remain).
theorem chunkify_head {α : Type} (size ov : Nat) (hov : ov < size)
    (t : List α) (pos : Nat) :
    ∃ tail, chunkify size ov hov t pos =
      ⟨pos, pos + (t.take size).length, t.take size⟩ :: tail := by
  by_cases hle : t.length ≤ size
  · refine ⟨[], ?_⟩
    rw [chunkify_of_le size ov hov t pos hle, List.take_of_length_le hle]
  · refine ⟨chunkify size ov hov (t.drop (size - ov)) (pos + (size - ov)), ?_⟩
    rw [chunkify_of_gt size ov hov t pos (by omega)]
    have hl : (t.take size).length = size := by
      simp only [List.length_take]
      omega
    rw [hl]

/-- The non-overlap span of each chunk: all but the last `ov` tokens
(that is, the first `step = size - ov` tokens) for every chunk that has
a successor, and the whole payload for the final chunk. -/
def uniqueSpans {α : Type} (step : Nat) : List (Chunk α) → List α
  | [] => []
  | [c] => c.data
  | c :: d :: rest => c.data.take step ++ uniqueSpans step (d :: rest)

-- Unfolding equation for `uniqueSpans` on two or more chunks.
theorem uniqueSpans_cons_cons {α : Type} (step : Nat) (c d : Chunk α)
    (rest : List (Chunk α)) :
    uniqueSpans step (c :: d :: rest) = c.data.take step ++ uniqueSpans step (d :: rest) :=
  rfl

-- Concatenating the non-overlap spans reconstructs the input.
theorem uniqueSpans_chunkify {α : Type} (size ov : Nat) (hov : ov < size) :
    ∀ (n : Nat) (t : List α), t.length ≤ n → ∀ (pos : Nat),
      uniqueSpans (size - ov) (chunkify size ov hov t pos) = t := by
  intro n
  induction n with
  | zero =>
    intro t ht pos
    rw [chunkify_of_le size ov hov t pos (by omega)]
    rfl
  | succ n ih =>
    intro t ht pos
    by_cases hle : t.length ≤ size
    · rw [chunkify_of_le size ov hov t pos hle]
      rfl
    · rw [chunkify_of_gt size ov hov t pos (by omega)]
      obtain ⟨tail, htail⟩ :=
        chunkify_head size ov hov (t.drop (size - ov)) (pos + (size - ov))
      rw [htail, uniqueSpans_cons_cons, ← htail]
      rw [ih (t.drop (size - ov)) (by simp only [List.length_drop]; omega)
            (pos + (size - ov))]
      rw [List.take_take]
      have hmin : min (size - ov) size = size - ov := by omega
      rw [hmin, List.take_append_drop]

/-- Every adjacent chunk pair shares exactly `ov` tokens: the last `ov`
tokens of a chunk are the first `ov` tokens of its successor, and the
successor is at least `ov` tokens long. -/
def AdjacentOverlap {α : Type} (ov : Nat) : List (Chunk α) → Prop
  | c :: d :: rest =>
      (ov ≤ d.data.length ∧ c.data.drop (c.data.length - ov) = d.data.take ov) ∧
      AdjacentOverlap ov (d :: rest)
  | _ => True

-- Chunking always yields exactly-`ov` overlaps between neighbours.
theorem adjacentOverlap_chunkify {α : Type} (size ov : Nat) (hov : ov < size) :
    ∀ (n : Nat) (t : List α), t.length ≤ n → ∀ (pos : Nat),
      AdjacentOverlap ov (chunkify size ov hov t pos) := by
  intro n
  induction n with
  | zero =>
    intro t ht pos
    rw [chunkify_of_le size ov hov t pos (by omega)]
    trivial
  | succ n ih =>
    intro t ht pos
    by_cases hle : t.length ≤ size
    · rw [chunkify_of_le size ov hov t pos hle]
      trivial
    · rw [chunkify_of_gt size ov hov t pos (by omega)]
      obtain ⟨tail, htail⟩ :=
        chunkify_head size ov hov (t.drop (size - ov)) (pos + (size - ov))
      rw [htail]
      refine ⟨⟨?_, ?_⟩, ?_⟩
      · simp only [List.length_take, List.length_drop]
        omega
      · have hlen : (t.take size).length = size := by
          simp only [List.length_take]
          omega
        show (t.take size).drop ((t.take size).length - ov) =
          ((t.drop (size - ov)).take size).take ov
        rw [hlen, List.drop_take, List.take_take]
        have h1 : size - (size - ov) = ov := by omega
        have h2 : min ov size = ov := by omega
        rw [h1, h2]
      · rw [← htail]
        exact ih (t.drop (size - ov)) (by simp only [List.length_drop]; omega)
          (pos + (size - ov))

-- Chunk start offsets are strictly increasing: source order preserved.
theorem chunkify_sorted {α : Type} (size ov : Nat) (hov : ov < size) :
    ∀ (n : Nat) (t : List α), t.length ≤ n → ∀ (pos : Nat),
      List.Chain' (fun c d => c.start < d.start) (chunkify size ov hov t pos) := by
  intro n
  induction n with
  | zero =>
    intro t ht pos
    rw [chunkify_of_le size ov hov t pos (by omega)]
    exact List.chain'_singleton _
  | succ n ih =>
    intro t ht pos
    by_cases hle : t.length ≤ size
    · rw [chunkify_of_le size ov hov t pos hle]
      exact List.chain'_singleton _
    · rw [chunkify_of_gt size ov hov t pos (by omega)]
      obtain ⟨tail, htail⟩ :=
        chunkify_head size ov hov (t.drop (size - ov)) (pos + (size - ov))
      rw [htail, List.chain'_cons]
      constructor
      · show pos < pos + (size - ov)
        omega
      · rw [← htail]
        exact ih (t.drop (size - ov)) (by simp only [List.length_drop]; omega)
          (pos + (size - ov))

-- Each chunk's payload is the slice of the original sequence between
-- its recorded start and stop offsets.
theorem chunkify_offsets {α : Type} (size ov : Nat) (hov : ov < size) :
    ∀ (n : Nat) (t : List α), t.length ≤ n → ∀ (pos : Nat),
      ∀ c ∈ chunkify size ov hov t pos,
        pos ≤ c.start ∧ c.data = (t.drop (c.start - pos)).take (c.stop - c.start) := by
  intro n
  induction n with
  | zero =>
    intro t ht pos c hc
    rw [chunkify_of_le size ov hov t pos (by omega)] at hc
    rw [List.mem_singleton] at hc
    subst hc
    refine ⟨le_refl pos, ?_⟩
    show t = (t.drop (pos - pos)).take (pos + t.length - pos)
    rw [Nat.sub_self, Nat.add_sub_cancel_left, List.drop_zero, List.take_length]
  | succ n ih =>
    intro t ht pos c hc
    by_cases hle : t.length ≤ size
    · rw [chunkify_of_le size ov hov t pos hle] at hc
      rw [List.mem_singleton] at hc
      subst hc
      refine ⟨le_refl pos, ?_⟩
      show t = (t.drop (pos - pos)).take (pos + t.length - pos)
      rw [Nat.sub_self, Nat.add_sub_cancel_left, List.drop_zero, List.take_length]
    · rw [chunkify_of_gt size ov hov t pos (by omega)] at hc
      rcases List.mem_cons.mp hc with hc | hc
      · subst hc
        refine ⟨le_refl pos, ?_⟩
        show t.take size = (t.drop (pos - pos)).take (pos + size - pos)
        rw [Nat.sub_self, Nat.add_sub_cancel_left, List.drop_zero]
      · obtain ⟨hstart, hdata⟩ :=
          ih (t.drop (size - ov)) (by simp only [List.length_drop]; omega)
            (pos + (size - ov)) c hc
        refine ⟨by omega, ?_⟩
        rw [List.drop_drop] at hdata
        have harg : size - ov + (c.start - (pos + (size - ov))) = c.start - pos := by
          omega
        rw [harg] at hdata
        exact hdata

/-- Claim C5: for every token sequence, chunking with size `size` and
overlap `ov` (defaults 512 and 64) satisfies: concatenating the chunks'
unique (non-overlap) spans in order reconstructs the original sequence
exactly; every adjacent chunk pair shares exactly `ov` tokens; the
chunk sequence preserves source order (strictly increasing start
offsets); and each chunk's recorded start/stop offsets identify its
span in the original sequence. -/
theorem windowed_chunking_spec {α : Type} (size ov : Nat) (hov : ov < size)
    (t : List α) :
    uniqueSpans (size - ov) (chunkify size ov hov t 0) = t ∧
    AdjacentOverlap ov (chunkify size ov hov t 0) ∧
    List.Chain' (fun c d => c.start < d.start) (chunkify size ov hov t 0) ∧
    ∀ c ∈ chunkify size ov hov t 0,
      c.data = (t.drop c.start).take (c.stop - c.start) := by
  refine ⟨uniqueSpans_chunkify size ov hov t.length t le_rfl 0,
    adjacentOverlap_chunkify size ov hov t.length t le_rfl 0,
    chunkify_sorted size ov hov t.length t le_rfl 0, ?_⟩
  intro c hc
  have h := (chunkify_offsets size ov hov t.length t le_rfl 0 c hc).2
  simpa using h

/-- Concrete instance of `windowed_chunking_spec` at the default chunk
size 512 and overlap 64, on a 1,000-token input (which produces three
chunks). -/
theorem windowed_chunking_check :
    uniqueSpans (512 - 64) (chunkify 512 64 (by decide) (List.range 1000) 0) =
      List.range 1000 ∧
    AdjacentOverlap 64 (chunkify 512 64 (by decide) (List.range 1000) 0) ∧
    List.Chain' (fun c d => c.start < d.start)
      (chunkify 512 64 (by decide) (List.range 1000) 0) ∧
    ∀ c ∈ chunkify 512 64 (by decide) (List.range 1000) 0,
      c.data = ((List.range 1000).drop c.start).take (c.stop - c.start) :=
  windowed_chunking_spec 512 64 (by decide) (List.range 1000)

end LegacyLens
